import Mathlib

/-!
Verification of the resolution/caching/trial-throttling core of the xbbg
repository, as described in its specification.

Python strings are modelled as lists of characters (`Str`), pandas bar
DataFrames as lists of (timestamp, value) rows (`Bars`), the filesystem as a
partial map from paths to stored payloads, and external collaborators
(Bloomberg fetch, pandas-market-calendars, the futures-roll lookup, the
trial-ledger backing store) as explicit environment fields.  Machine times
are integers (seconds); `pd.Timedelta('1h')` is 3600.
-/

namespace Xbbg

/-- Python strings, modelled as lists of characters. -/
abbrev Str := List Char

/-- A bar payload: rows indexed by an integer timestamp, with an abstract
integer datum per row (`pd.DataFrame` with a sorted time index). -/
abbrev Bars := List (Int × Int)

/-- Boolean test that a string starts with the given leading characters
(Python `str.startswith`). -/
def startsWithL : Str → Str → Bool
  | _, [] => true
  | [], _ :: _ => false
  | c :: s, p :: ps => c = p && startsWithL s ps

/-- Helper for `splitOnChar`: accumulates the current chunk (reversed). -/
def splitOnCharAux (sep : Char) : Str → Str → List Str
  | acc, [] => [acc.reverse]
  | acc, c :: cs =>
    if c = sep then acc.reverse :: splitOnCharAux sep [] cs
    else splitOnCharAux sep (c :: acc) cs

/-- Split a string on a separator character, keeping empty chunks. -/
def splitOnChar (sep : Char) (s : Str) : List Str :=
  splitOnCharAux sep [] s

/-- Python `str.split()` (no argument): split on spaces and drop the empty
chunks. -/
def pySplit (s : Str) : List Str :=
  (splitOnChar ' ' s).filter (fun t => !t.isEmpty)

/-- Last whitespace-separated token of a ticker (Python `ticker.split()[-1]`),
defaulting to the empty string. -/
def lastTokenOf (s : Str) : Str :=
  (pySplit s).getLastD []

/-- Uppercase a string (Python `str.upper`). -/
def toUpperL (s : Str) : Str :=
  s.map Char.toUpper

/-- Replace every occurrence of one character by another
(Python `str.replace` with single-character arguments). -/
def replaceChar (old new : Char) (s : Str) : Str :=
  s.map fun c => if c = old then new else c

/-- Filesystem-safe ticker: slashes replaced by underscores
(`ticker.replace('/', '_')`, src/xbbg/io/cache.py). -/
def properTicker (ticker : Str) : Str :=
  replaceChar '/' '_' ticker

/-- Restriction of a bar payload to a closed window with optional bounds:
pandas `.loc[start:end]` on a time index, where a missing bound keeps that
side unrestricted. -/
def sliceLoc (lo hi : Option Int) (b : Bars) : Bars :=
  b.filter fun r =>
    (match lo with | none => true | some a => decide (a ≤ r.1)) &&
    (match hi with | none => true | some a => decide (r.1 ≤ a))

/-- Extension of intraday bar cache files. -/
def parqDotExt : Str := ".parq".data

/-- One hour, in seconds (`pd.Timedelta('1h')`). -/
def oneHour : Int := 3600

/-- Session-window value passed around the intraday pipeline: nullable start
and end timestamps plus the session name (contracts.SessionWindow; modelled
from the spec and the tests of xbbg.core.domain.contracts, whose source is
not in src/: both timestamps nullable, validity means both present). -/
structure SessionWindow where
  start_time : Option Int
  end_time : Option Int
  session_name : Str
deriving DecidableEq

/-- Validity check of a session window: both boundaries are non-null
(contracts.SessionWindow.is_valid, pinned by tests/api/test_intraday_pipeline.py). -/
def SessionWindow.is_valid (w : SessionWindow) : Bool :=
  w.start_time.isSome && w.end_time.isSome

/-- Static exchange information for a ticker (the pd.Series returned by
const.exch_info / _get_default_exchange_info).  Modelled from the spec:
the const module is not in src/; the spec describes a duck-typed record
with a time zone, optional named session boundaries, and futures metadata. -/
structure ExchInfo where
  tz : Str
  allday : Option (Str × Str) := none
  day : Option (Str × Str) := none
  isFut : Bool := false
  hasSprd : Bool := false
  tickersHead : Nat := 0
deriving DecidableEq

/-- Environment of the intraday (bdib) pipeline: the persisted stores it owns
plus its external collaborators, made explicit.
  * cacheRoot : result of get_cache_root() (BBG_ROOT or the platform default);
  * exchTable : const.exch_info, the static per-exchange session table
    (modelled from the spec: const is not in src/; none = empty Series);
  * fs : the parquet bar store, path to payload;
  * timeRange : process.time_range (ticker, session) to session window
    (modelled from the spec: process is not in src/; nullable boundaries);
  * checkCurrent : process.check_current for the requested date;
  * futTicker : the futures-roll lookup fut_ticker (empty string = failure);
  * trialCount : trials.num_trials per (func, ticker, date, eventType) key
    (modelled from the spec: the trials module is not in src/);
  * fetchResult : rows produced by conn.send_request + process.rec_events;
  * pmcResult : outcome of the pandas-market-calendars schedule lookup inside
    _get_default_exchange_info (none = unavailable / empty schedule);
  * sessionEnd : const.market_timing(..., timing='FINISHED') for the request,
    in the exchange time zone (modelled from the spec: session end boundary);
  * now : current wall-clock time in the exchange time zone;
  * infoEnabled : logger.isEnabledFor(logging.INFO). -/
structure Env where
  cacheRoot : Str
  exchTable : Str → Option ExchInfo
  fs : Str → Option Bars
  timeRange : Str → Str → SessionWindow
  checkCurrent : Bool
  futTicker : Str → Str
  trialCount : Str × Str × Str × Str → Nat
  fetchResult : Bars
  pmcResult : Option ExchInfo
  sessionEnd : Int
  now : Int
  infoEnabled : Bool

/-- Bar cache file location (bar_file, src/xbbg/io/cache.py lines 82-100):
root/asset/properTicker/eventType/date.parq, or the empty string when no
cache root is available. -/
def bar_file (root ticker dt typ : Str) : Str :=
  if root = [] then []
  else
    root ++ '/' :: lastTokenOf ticker ++ '/' :: properTicker ticker
      ++ '/' :: typ ++ '/' :: dt ++ parqDotExt

/-- Completeness-guarded save of intraday bars (save_intraday,
src/xbbg/io/cache.py lines 146-184).  Returns the written (path, payload)
pair, or none when nothing is persisted: no cache path, empty payload, no
exchange info, or the identified session end is less than one hour in the
past relative to wall-clock time in the exchange time zone. -/
def save_intraday (env : Env) (data : Bars) (ticker dt typ : Str) :
    Option (Str × Bars) :=
  let dataFile := bar_file env.cacheRoot ticker dt typ
  if dataFile = [] then none
  else if data = [] then none
  else
    match env.exchTable ticker with
    | none => none
    | some _ =>
      if env.sessionEnd > env.now - oneHour then none
      else some (dataFile, data)

/-- Data request passed to the bar cache adapter (contracts.DataRequest;
modelled from the spec and tests/api/test_intraday_pipeline.py: the contracts
module is not in src/).  The nested CachePolicy is flattened into its two
boolean fields. -/
structure DataRequest where
  ticker : Str
  dt : Str
  event_type : Str
  cache_enabled : Bool := true
  reload : Bool := false
deriving DecidableEq

/-- Load of the bar cache adapter (BarCacheAdapter.load,
src/xbbg/io/cache.py lines 195-226): absent on an invalid window, a missing
cache path or file; otherwise the stored payload restricted to the window,
absent when the restriction is empty.  Deserialization is modelled as
always succeeding (a failing read is treated as a miss by the source and is
outside the claims). -/
def BarCacheAdapter.load (fs : Str → Option Bars) (root : Str)
    (req : DataRequest) (w : SessionWindow) : Option Bars :=
  if !w.is_valid then none
  else
    let dataFile := bar_file root req.ticker req.dt req.event_type
    if dataFile = [] then none
    else
      match fs dataFile with
      | none => none
      | some content =>
        let res := sliceLoc w.start_time w.end_time content
        if res = [] then none else some res

/-- Keyword arguments of the bdib pipeline that the modelled code consults. -/
structure Kw where
  cache : Bool := true
  reload : Bool := false
  batch : Bool := false
  tz : Option Str := none
deriving DecidableEq

/-- Identifier section of the '/isin/' ticker scheme. -/
def isinPfxStr : Str := "/isin/".data

/-- Identifier section of the '/cusip/' ticker scheme. -/
def cusipPfxStr : Str := "/cusip/".data

/-- Identifier section of the '/sedol/' ticker scheme. -/
def sedolPfxStr : Str := "/sedol/".data

/-- Bond-type ticker suffixes recognized by bdib. -/
def bondSuffixes : List Str := ["Govt".data, "Corp".data, "Mtge".data, "Muni".data]

/-- Fixed-income detection in bdib (src/xbbg/blp.py lines 495-503): an
identifier-scheme ticker, or a bond-type last token with a first token whose
first two characters are letters. -/
def is_fixed_income (ticker : Str) : Bool :=
  startsWithL ticker isinPfxStr || startsWithL ticker cusipPfxStr ||
  startsWithL ticker sedolPfxStr ||
  (match pySplit ticker with
   | [] => false
   | t0 :: rest =>
     bondSuffixes.contains ((t0 :: rest).getLastD []) &&
     !t0.isEmpty && decide (2 ≤ t0.length) && (t0.take 2).all Char.isAlpha)

/-- Country code inference of _get_default_exchange_info
(src/xbbg/blp.py lines 272-291): first two characters after an '/isin/'
scheme, none for '/cusip/' and '/sedol/', else the leading token when it has
exactly two characters.  (The source strips '/isin/' with str.replace; on a
ticker that starts with the scheme this equals dropping its length.) -/
def inferCountry (ticker : Str) : Option Str :=
  if startsWithL ticker isinPfxStr then
    let ident := ticker.drop isinPfxStr.length
    if 2 ≤ ident.length then some (toUpperL (ident.take 2)) else none
  else if startsWithL ticker cusipPfxStr || startsWithL ticker sedolPfxStr then
    none
  else
    match pySplit ticker with
    | [] => none
    | t0 :: _ => if t0.length = 2 then some (toUpperL t0) else none

/-- Country codes with a pandas-market-calendars bond-market calendar
(src/xbbg/blp.py lines 265-270). -/
def countryToPmcCalendar : List (Str × Str) :=
  [("US".data, "SIFMA_US".data), ("GB".data, "SIFMA_UK".data),
   ("UK".data, "SIFMA_UK".data), ("JP".data, "SIFMA_JP".data)]

/-- The pandas-market-calendars branch of _get_default_exchange_info
(src/xbbg/blp.py lines 293-334): only attempted with a date and a country
code mapped to a PMC calendar; the whole guarded try-block (import, schedule
lookup, holiday fallthrough) is the environment's pmcResult oracle. -/
def pmcStep (env : Env) (dt : Option Str) (cc : Option Str) : Option ExchInfo :=
  match dt, cc with
  | some _, some c =>
    if (countryToPmcCalendar.lookup c).isSome then env.pmcResult else none
  | _, _ => none

/-- Static country-to-timezone fallback table of _get_default_exchange_info
(src/xbbg/blp.py lines 351-364). -/
def tzTable : List (Str × Str) :=
  [("US".data, "America/New_York".data), ("GB".data, "Europe/London".data),
   ("UK".data, "Europe/London".data), ("JP".data, "Asia/Tokyo".data),
   ("DE".data, "Europe/Berlin".data), ("FR".data, "Europe/Paris".data),
   ("IT".data, "Europe/Rome".data), ("ES".data, "Europe/Madrid".data),
   ("NL".data, "Europe/Amsterdam".data), ("CH".data, "Europe/Zurich".data),
   ("AU".data, "Australia/Sydney".data), ("CA".data, "America/Toronto".data)]

/-- Default time zone used when no country-specific entry applies. -/
def nyTz : Str := "America/New_York".data

/-- Start of the default full-day session window. -/
def t0000 : Str := "00:00".data

/-- End of the default full-day session window. -/
def t2359 : Str := "23:59".data

/-- Error message of the unresolvable CUSIP/SEDOL branch. -/
def cannotDetermineMsg : Str := "Cannot determine country code from ".data

/-- Full-day default exchange info in the given time zone
(src/xbbg/blp.py lines 367-372). -/
def defaultFullDay (tz : Str) : ExchInfo :=
  { tz := tz, allday := some (t0000, t2359), day := some (t0000, t2359) }

/-- Default exchange info for fixed-income securities
(_get_default_exchange_info, src/xbbg/blp.py lines 254-372): PMC calendar
when applicable, an error for CUSIP/SEDOL identifiers without country
information, otherwise a full-day window in a country-inferred (or default)
time zone. -/
def get_default_exchange_info (env : Env) (ticker : Str) (dt : Option Str)
    (kwTz : Option Str) : Except Str ExchInfo :=
  let cc := inferCountry ticker
  match pmcStep env dt cc with
  | some info => Except.ok info
  | none =>
    match cc with
    | none =>
      if startsWithL ticker cusipPfxStr || startsWithL ticker sedolPfxStr then
        Except.error (cannotDetermineMsg ++ ticker)
      else
        Except.ok (defaultFullDay (kwTz.getD nyTz))
    | some c =>
      Except.ok (defaultFullDay ((tzTable.lookup c).getD (kwTz.getD nyTz)))

/-- Exchange-info resolution step at the head of bdib
(src/xbbg/blp.py lines 491-508): the static table first, the fixed-income
default as fallback, an error otherwise. -/
def exch_info_for (env : Env) (ticker dt : Str) (kw : Kw) :
    Except Str ExchInfo :=
  match env.exchTable ticker with
  | some info => Except.ok info
  | none =>
    if is_fixed_income ticker then
      get_default_exchange_info env ticker (some dt) kw.tz
    else
      Except.error ("Cannot find exchange info for ".data ++ ticker)

/-- Cached-bar read of bdib (_load_cached_bdib, src/xbbg/blp.py lines
217-234): some sliced payload only when the file exists, caching is enabled
and no reload is forced, and the window-restricted slice is non-empty. -/
def load_cached_bdib (env : Env) (ticker dt session typ : Str) (kw : Kw) :
    Option Bars :=
  let ssRng := env.timeRange ticker session
  let dataFile := bar_file env.cacheRoot ticker dt typ
  if (env.fs dataFile).isSome && kw.cache && !kw.reload then
    match env.fs dataFile with
    | none => none
    | some content =>
      let res := sliceLoc ssRng.start_time ssRng.end_time content
      if res = [] then none else some res
  else none

/-- Futures resolution step of bdib (_resolve_bdib_ticker,
src/xbbg/blp.py lines 237-251): generic futures tickers go through the
roll lookup; an empty lookup result is a failure (none). -/
def resolve_bdib_ticker (env : Env) (ticker : Str) (info : ExchInfo) :
    Option Str :=
  if info.isFut then
    let isSprd := info.hasSprd && !decide (ticker.length - 1 = info.tickersHead)
    if !isSprd then
      let q := env.futTicker ticker
      if q = [] then none else some q
    else some ticker
  else some ticker

/-- Observable outcome of one bdib call: the returned rows, whether the
external fetch collaborator was invoked, whether the no-data INFO message
was logged, what was written to the bar cache, and the trial-ledger update
performed. -/
structure BdibOut where
  result : Bars
  fetchInvoked : Bool := false
  infoLogged : Bool := false
  savedFile : Option (Str × Bars) := none
  trialsUpdated : Option Nat := none
deriving DecidableEq

/-- Response processing of bdib (_process_bdib_response,
src/xbbg/blp.py lines 432-454): empty responses give an empty frame;
otherwise the payload is saved through save_intraday when caching is
enabled, and the session-restricted slice is returned. -/
def process_bdib_response (env : Env) (res : Bars)
    (ticker dt session typ : Str) (kw : Kw) : BdibOut :=
  if res = [] then { result := [] }
  else
    let ssRng := env.timeRange ticker session
    let saved := if kw.cache then save_intraday env res ticker dt typ else none
    { result := sliceLoc ssRng.start_time ssRng.end_time res,
      savedFile := saved }

/-- Trial-ledger key used by bdib: (func='bdib', ticker, date, eventType). -/
def bdibKey (ticker dt typ : Str) : Str × Str × Str × Str :=
  ("bdib".data, ticker, dt, typ)

/-- Body of bdib after exchange-info resolution (src/xbbg/blp.py lines
510-549): cache read, currency-of-date check, futures resolution, the
trial-ledger gate with its batch/interactive split, then fetch, empty-response
ledger update, and response processing. -/
def bdibCore (env : Env) (ticker dt session typ : Str) (kw : Kw)
    (exInfo : ExchInfo) : BdibOut :=
  match load_cached_bdib env ticker dt session typ kw with
  | some d => { result := d }
  | none =>
    if env.checkCurrent then
      match resolve_bdib_ticker env ticker exInfo with
      | none => { result := [] }
      | some _ =>
        let numTrials := env.trialCount (bdibKey ticker dt typ)
        if 2 ≤ numTrials then
          if kw.batch then { result := [] }
          else { result := [], infoLogged := env.infoEnabled }
        else if env.fetchResult = [] then
          { result := [], fetchInvoked := true,
            trialsUpdated := some (numTrials + 1) }
        else
          { process_bdib_response env env.fetchResult ticker dt session typ kw
              with fetchInvoked := true }
    else { result := [] }

/-- Bloomberg intraday bar orchestration (bdib, src/xbbg/blp.py lines
457-549).  The only raising paths are the exchange-info resolution ones. -/
def bdib (env : Env) (ticker dt session typ : Str) (kw : Kw) :
    Except Str BdibOut :=
  match exch_info_for env ticker dt kw with
  | Except.error e => Except.error e
  | Except.ok exInfo => Except.ok (bdibCore env ticker dt session typ kw exInfo)

/-- Name of the default all-day session. -/
def alldayStr : Str := "allday".data

/-- Name of the day session. -/
def dayStr : Str := "day".data

/-- A resolver-chain request: raw ticker plus session name
(defaulting to the all-day session, as in bdib). -/
structure ChainRequest where
  ticker : Str
  session : Str := alldayStr

/-- The four resolution strategies of the ticker-resolver chain. -/
inductive Strategy where
  | fixedIncomeDefault
  | futuresRoll
  | pmcCalendar
  | exchangeYaml
deriving DecidableEq

/-- Generic (continuous) futures ticker pattern: a leading token ending in a
digit, as in 'ES1 Index'.  Modelled from the spec: the resolver_chain module
is not in src/; the spec says the futures strategy triggers when the ticker
pattern indicates a continuous/generic futures reference. -/
def isGenericFutTicker (ticker : Str) : Bool :=
  match pySplit ticker with
  | [] => false
  | t0 :: _ => !t0.isEmpty && (t0.getLastD ' ').isDigit

/-- Trigger predicates of the four strategies.  Modelled from the spec
(section 4.2): the resolver_chain module is not in src/.  The fixed-income
trigger is the identifier-scheme / bond-suffix test also used by bdib; the
PMC trigger requires the day session and an external calendar mapping
(the pmcMapped oracle); the static-exchange-table strategy always matches. -/
def canResolve (pmcMapped : Str → Bool) : Strategy → ChainRequest → Bool
  | Strategy.fixedIncomeDefault, r => is_fixed_income r.ticker
  | Strategy.futuresRoll, r => isGenericFutTicker r.ticker
  | Strategy.pmcCalendar, r => (r.session == dayStr) && pmcMapped r.ticker
  | Strategy.exchangeYaml, _ => true

/-- Fixed priority order of the resolver chain.  Modelled from the spec
(section 4.2): fixed-income default first, the static exchange table as the
final fallback. -/
def chainOrder : List Strategy :=
  [Strategy.fixedIncomeDefault, Strategy.futuresRoll,
   Strategy.pmcCalendar, Strategy.exchangeYaml]

/-- The strategy the chain resolves a request with: the first strategy, in
priority order, whose trigger predicate holds.  Modelled from the spec
(section 4.2). -/
def resolveVia (pmcMapped : Str → Bool) (r : ChainRequest) : Option Strategy :=
  chainOrder.find? (fun s => canResolve pmcMapped s r)

/-- Control parameters excluded from the reference cache key.  Modelled from
the spec (section 4.4): the overrides config module defining PRSV_COLS is
not in src/; the spec names cache, raw and log as the excluded fixed set. -/
def PRSV_COLS : List Str := ["cache".data, "raw".data, "log".data]

/-- Keys that never reach the override digest of ref_file: the preserved
control columns plus cache_days, which ref_file pops before filtering
(src/xbbg/io/cache.py line 127; its value is the cacheDays parameter of the
model). -/
def controlKeys : List Str := PRSV_COLS ++ ["cache_days".data]

/-- Non-control part of the keyword overrides
(ref_kw, src/xbbg/io/cache.py line 130). -/
def filtOvrds (kw : List (Str × Str)) : List (Str × Str) :=
  kw.filter fun p => !(controlKeys.contains p.1)

/-- Rendering of one key=value override pair (utils.to_str item format,
pinned by src/xbbg/tests/test_utils.py). -/
def encPair (p : Str × Str) : Str := p.1 ++ '=' :: p.2

/-- Rendering of an override list: key=value pairs joined by a comma and a
space (the interior of utils.to_str, whose braces ref_file strips;
utils.to_str is not in src/ and its format is pinned by
src/xbbg/tests/test_utils.py). -/
def joinInfo : List (Str × Str) → Str
  | [] => []
  | [p] => encPair p
  | p :: q :: ps => encPair p ++ ',' :: ' ' :: joinInfo (q :: ps)

/-- Pipe-to-underscore normalization applied to the override digest
(src/xbbg/io/cache.py line 131). -/
def replaceBar (s : Str) : Str := replaceChar '|' '_' s

/-- Sentinel file-name stem used when no non-control overrides remain
(src/xbbg/io/cache.py line 131). -/
def ovrdNoneStr : Str := "ovrd=None".data

/-- Override digest of the reference cache key
(info, src/xbbg/io/cache.py line 131). -/
def refInfo (kw : List (Str × Str)) : Str :=
  let rk := filtOvrds kw
  if rk = [] then ovrdNoneStr else replaceBar (joinInfo rk)

/-- Directory of a ticker/field reference cache entry
(root, src/xbbg/io/cache.py line 128). -/
def refRootDir (root ticker fld : Str) : Str :=
  root ++ '/' :: lastTokenOf ticker ++ '/' :: properTicker ticker ++ '/' :: fld

/-- Leading tag of dated reference cache file names. -/
def asofStr : Str := "asof=".data

/-- Dated reference cache file path for a given day: the date placeholder of
the cache_file template substituted (src/xbbg/io/cache.py lines 134-141). -/
def refDatedPath (root ticker fld : Str) (kw : List (Str × Str)) (ext : Str)
    (dateStr : Int → Str) (d : Int) : Str :=
  refRootDir root ticker fld ++
    '/' :: asofStr ++ dateStr d ++ ',' :: ' ' :: refInfo kw ++ '.' :: ext

/-- Backward scan over consecutive days: the first day, counting down from
the given one over at most the given number of days, satisfying the
predicate (the loop of src/xbbg/io/cache.py lines 137-140, which iterates
the cache_days most recent days, newest first). -/
def scanBack (p : Int → Bool) : Int → Nat → Option Int
  | _, 0 => none
  | d, n + 1 => if p d then some d else scanBack p (d - 1) n

/-- Reference cache file location (ref_file, src/xbbg/io/cache.py lines
103-143).  Days are integers and dateStr is the date formatter; fsExists is
the files.exists collaborator; cacheDays is the popped cache_days override
(default 10).  Dated mode scans backward for the most recent existing file
and falls back to the current date. -/
def ref_file (fsExists : Str → Bool) (root : Str) (curDate : Int)
    (dateStr : Int → Str) (ticker fld : Str) (hasDate cache : Bool)
    (ext : Str) (cacheDays : Nat) (kw : List (Str × Str)) : Str :=
  if !cache then []
  else if root = [] then []
  else if hasDate then
    match
      scanBack (fun d => fsExists (refDatedPath root ticker fld kw ext dateStr d))
        curDate cacheDays with
    | some d => refDatedPath root ticker fld kw ext dateStr d
    | none => refDatedPath root ticker fld kw ext dateStr curDate
  else
    refRootDir root ticker fld ++ '/' :: refInfo kw ++ '.' :: ext

/-- Outcome of one get_bbg_exch_code call: the returned exchange code, the
resulting JSON cache contents, and whether the upstream fetch was attempted. -/
structure ExchCodeOut where
  val : Str
  cache : List (Str × Str)
  fetched : Bool
deriving DecidableEq

/-- Bloomberg exchange-code lookup with JSON caching (get_bbg_exch_code,
src/xbbg/markets/calendars.py lines 66-97).  The fetchVal oracle is the
whole guarded bdp block: some v when the fetch produced a usable non-empty
field value v, none when it raised or no field carried a value.  A cached
ticker short-circuits; a failed fetch caches the empty string. -/
def get_bbg_exch_code (fetchVal : Option Str) (cache : List (Str × Str))
    (ticker : Str) : ExchCodeOut :=
  match cache.lookup ticker with
  | some v => { val := v, cache := cache, fetched := false }
  | none =>
    match fetchVal with
    | some v => { val := v, cache := (ticker, v) :: cache, fetched := true }
    | none => { val := [], cache := (ticker, []) :: cache, fetched := true }

/-- Base environment for concrete instantiations: empty stores, trivial
collaborators. -/
def baseEnv : Env where
  cacheRoot := "root".data
  exchTable := fun _ => none
  fs := fun _ => none
  timeRange := fun _ _ =>
    { start_time := some 0, end_time := some 86400, session_name := alldayStr }
  checkCurrent := true
  futTicker := fun _ => []
  trialCount := fun _ => 0
  fetchResult := []
  pmcResult := none
  sessionEnd := 0
  now := 100000
  infoEnabled := true

/-- Ticker fixture: a plain equity. -/
def aaplT : Str := "AAPL US Equity".data

/-- Ticker fixture: an ISIN identifier. -/
def isinT : Str := "/isin/US912810FE39".data

/-- Ticker fixture: a bond with a country-coded ticker. -/
def govtT : Str := "US912810FE39 Govt".data

/-- Ticker fixture: a generic futures ticker. -/
def es1T : Str := "ES1 Index".data

/-- Ticker fixture: a CUSIP identifier. -/
def cusipT : Str := "/cusip/12345678".data

/-- Date fixture. -/
def dt0 : Str := "2025-01-01".data

/-- Event-type fixture. -/
def tradeT : Str := "TRADE".data

/-- Default keyword arguments. -/
def kwDefault : Kw := {}

/-- Environment fixture for the trial-gate claim: exchange info present,
cache empty, trial count already at the threshold. -/
def envTrialW : Env :=
  { baseEnv with
    exchTable := fun _ => some { tz := nyTz },
    trialCount := fun _ => 2 }

/-- Expected bdib outcome in the trial-gate fixture. -/
def outTrialW : BdibOut := { result := [], infoLogged := true }

/-- Environment fixture for the completeness-guard claim: exchange info
present, session end long past. -/
def envSaveW : Env :=
  { baseEnv with exchTable := fun _ => some { tz := nyTz } }

/-- Request fixture with caching disabled, for the bar-cache-adapter claim. -/
def reqC3 : DataRequest :=
  { ticker := aaplT, dt := dt0, event_type := tradeT, cache_enabled := false }

/-- Valid window fixture for the bar-cache-adapter claim. -/
def wC3 : SessionWindow :=
  { start_time := some 0, end_time := some 10, session_name := dayStr }

/-- Filesystem fixture: exactly the derived bar cache file exists, holding
one row inside the window. -/
def fsC3 : Str → Option Bars := fun p =>
  if p = bar_file ("root".data) reqC3.ticker reqC3.dt reqC3.event_type then
    some [(5, 1)]
  else none

/-- Environment fixture for the reload claim: the cache file exists and
covers the window, yet reload must bypass it; the fetch returns one row. -/
def envReloadW : Env :=
  { baseEnv with
    exchTable := fun _ => some { tz := nyTz },
    fs := fsC3,
    fetchResult := [(5, 1)] }

/-- Keyword arguments fixture forcing a reload with caching enabled. -/
def kwReloadW : Kw := { reload := true }

/-- Override fixture: one Bloomberg override plus one control parameter. -/
def kwOvrdA : List (Str × Str) := [("DVD_Start_Dt".data, "20180101".data), ("raw".data, "T".data)]

/-- Override fixture: the same Bloomberg override without the control
parameter. -/
def kwOvrdB : List (Str × Str) := [("DVD_Start_Dt".data, "20180101".data)]

/-- Override fixture: a different value for the same Bloomberg override. -/
def kwOvrdC : List (Str × Str) := [("DVD_Start_Dt".data, "20180501".data)]

/-- Existence oracle fixture for the dated-scan claim: a file exists exactly
when its path mentions the digit 9. -/
def fsEx8 : Str → Bool := fun s => decide ('9' ∈ s)

/-- Date formatter fixture for the dated-scan claim. -/
def dateStr8 : Int → Str := fun d => if d = 9 then "D9".data else "DX".data

/-- Ticker fixture: an ISIN with a German country code. -/
def isinDeT : Str := "/isin/DE0001102580".data

/-- Well-formedness of one override pair for collision-free encoding: the
key avoids the key-value separator, and both parts avoid the pair separator
and the pipe that ref_file rewrites to an underscore. -/
def wfOvrd (p : Str × Str) : Prop :=
  '=' ∉ p.1 ∧ ',' ∉ p.1 ∧ ',' ∉ p.2 ∧ '|' ∉ p.1 ∧ '|' ∉ p.2

/-- Well-formedness of an override list: every pair is well formed and a
non-empty filtered list does not encode to the reserved empty-override
sentinel. -/
def wfOvrds (kw : List (Str × Str)) : Prop :=
  (∀ p ∈ kw, wfOvrd p) ∧
  (filtOvrds kw = [] ∨ replaceBar (joinInfo (filtOvrds kw)) ≠ ovrdNoneStr)

instance (p : Str × Str) : Decidable (wfOvrd p) := by
  unfold wfOvrd
  infer_instance

instance (kw : List (Str × Str)) : Decidable (wfOvrds kw) := by
  unfold wfOvrds
  infer_instance

theorem bar_file_ne_nil (root ticker dt typ : Str) (h : root ≠ []) :
    bar_file root ticker dt typ ≠ [] := by
  unfold bar_file
  rw [if_neg h]
  cases root with
  | nil => exact absurd rfl h
  | cons c cs => simp

theorem startsWithL_iff (t p : Str) : startsWithL t p = true ↔ ∃ r, t = p ++ r := by
  induction p generalizing t with
  | nil =>
    cases t <;> exact ⟨fun _ => ⟨_, rfl⟩, fun _ => rfl⟩
  | cons c ps ih =>
    cases t with
    | nil => simp [startsWithL]
    | cons a t' =>
      simp only [startsWithL, List.cons_append, List.cons.injEq,
        Bool.and_eq_true, decide_eq_true_eq, ih]
      constructor
      · rintro ⟨rfl, r, rfl⟩
        exact ⟨r, rfl, rfl⟩
      · rintro ⟨r, h1, h2⟩
        exact ⟨h1, r, h2⟩

theorem cusip_not_isin (r : Str) :
    startsWithL (cusipPfxStr ++ r) isinPfxStr = false := rfl

theorem sedol_not_isin (r : Str) :
    startsWithL (sedolPfxStr ++ r) isinPfxStr = false := rfl

/-- C2: for every non-empty bar payload, save_intraday persists nothing when
the identified session end is less than one hour in the past relative to
wall-clock time in the exchange time zone; when it is at least one hour in
the past and exchange info is available (and a cache root exists), the
payload is written to the bar cache file. -/
theorem save_intraday_completeness_guard (env : Env) (data : Bars)
    (ticker dt typ : Str) (hdata : data ≠ []) :
    (env.now - env.sessionEnd < oneHour →
      save_intraday env data ticker dt typ = none) ∧
    (oneHour ≤ env.now - env.sessionEnd →
      (env.exchTable ticker).isSome = true → env.cacheRoot ≠ [] →
      save_intraday env data ticker dt typ =
        some (bar_file env.cacheRoot ticker dt typ, data)) := by
  constructor
  · intro h
    unfold save_intraday
    by_cases h1 : bar_file env.cacheRoot ticker dt typ = []
    · simp [h1]
    · cases hx : env.exchTable ticker with
      | none => simp [h1, hdata, hx]
      | some e =>
        have hlt : env.sessionEnd > env.now - oneHour := by omega
        simp [h1, hdata, hx, hlt]
  · intro h h2 h3
    obtain ⟨e, he⟩ := Option.isSome_iff_exists.mp h2
    have h1 := bar_file_ne_nil env.cacheRoot ticker dt typ h3
    have hge : ¬(env.sessionEnd > env.now - oneHour) := by omega
    simp [save_intraday, h1, hdata, he, hge]

theorem save_intraday_completeness_guard_witness :
    save_intraday envSaveW [(0, 1)] aaplT dt0 tradeT =
      some (bar_file envSaveW.cacheRoot aaplT dt0 tradeT, [(0, 1)]) :=
  (save_intraday_completeness_guard envSaveW [(0, 1)] aaplT dt0 tradeT
    (by decide)).2 (by decide) (by decide) (by decide)

/-- C5: for every CUSIP- or SEDOL-scheme identifier ticker, default-exchange
resolution signals a failure instead of silently returning a default time
zone, regardless of the date, keyword time zone, or calendar environment. -/
theorem cusip_sedol_resolution_fails (env : Env) (ticker : Str)
    (dt : Option Str) (kwTz : Option Str)
    (h : startsWithL ticker cusipPfxStr = true ∨
         startsWithL ticker sedolPfxStr = true) :
    ∃ msg, get_default_exchange_info env ticker dt kwTz = Except.error msg := by
  have hcs : (startsWithL ticker cusipPfxStr || startsWithL ticker sedolPfxStr) = true := by
    rcases h with h | h <;> simp [h]
  have hisin : startsWithL ticker isinPfxStr = false := by
    rcases h with h | h <;>
      (obtain ⟨r, rfl⟩ := (startsWithL_iff _ _).mp h; rfl)
  have hcc : inferCountry ticker = none := by
    simp [inferCountry, hisin, hcs]
  have hp : pmcStep env dt none = none := by cases dt <;> rfl
  refine ⟨cannotDetermineMsg ++ ticker, ?_⟩
  simp [get_default_exchange_info, hcc, hp, hcs]

theorem cusip_sedol_resolution_fails_witness :
    ∃ msg, get_default_exchange_info baseEnv cusipT none none =
      Except.error msg :=
  cusip_sedol_resolution_fails baseEnv cusipT none none (Or.inl (by decide))

/-- C6: for every ticker whose inferred two-letter country code has an entry
in the static country-to-timezone table, when the market-calendar branch
does not apply, resolution succeeds with the country's time zone and a
full-day 00:00-23:59 window for both the allday and day sessions. -/
theorem fi_default_fullday_fallback (env : Env) (ticker : Str)
    (dt : Option Str) (kwTz : Option Str) (cc tz0 : Str)
    (hcc : inferCountry ticker = some cc)
    (htz : tzTable.lookup cc = some tz0)
    (hpmc : pmcStep env dt (some cc) = none) :
    get_default_exchange_info env ticker dt kwTz =
      Except.ok
        { tz := tz0, allday := some (t0000, t2359),
          day := some (t0000, t2359) } := by
  simp [get_default_exchange_info, hcc, hpmc, htz, defaultFullDay]

theorem fi_default_fullday_fallback_witness :
    get_default_exchange_info baseEnv isinDeT none none =
      Except.ok
        { tz := "Europe/Berlin".data, allday := some (t0000, t2359),
          day := some (t0000, t2359) } :=
  fi_default_fullday_fallback baseEnv isinDeT none none ("DE".data)
    ("Europe/Berlin".data) (by decide) (by decide) rfl

/-- C10: once get_bbg_exch_code fails to obtain a usable exchange code for an
uncached ticker, the empty string is persisted for that ticker, and every
subsequent call returns the cached empty string without fetching. -/
theorem exch_code_failure_cached (cache : List (Str × Str)) (ticker : Str)
    (hmiss : cache.lookup ticker = none) :
    (get_bbg_exch_code none cache ticker).val = [] ∧
    (get_bbg_exch_code none cache ticker).cache.lookup ticker = some [] ∧
    ∀ fetch2,
      get_bbg_exch_code fetch2 (get_bbg_exch_code none cache ticker).cache
          ticker =
        { val := [], cache := (get_bbg_exch_code none cache ticker).cache,
          fetched := false } := by
  unfold get_bbg_exch_code
  rw [hmiss]
  refine ⟨rfl, ?_, ?_⟩
  · simp [List.lookup]
  · intro f2
    simp [List.lookup]

theorem exch_code_failure_cached_witness :
    (get_bbg_exch_code none [] ("X".data)).val = [] ∧
    (get_bbg_exch_code none [] ("X".data)).cache.lookup ("X".data) = some [] ∧
    ∀ fetch2,
      get_bbg_exch_code fetch2 (get_bbg_exch_code none [] ("X".data)).cache
          ("X".data) =
        { val := [], cache := (get_bbg_exch_code none [] ("X".data)).cache,
          fetched := false } :=
  exch_code_failure_cached [] ("X".data) rfl

/-- C4: on the fixed input set, the resolver chain in the spec's priority
order resolves the plain equity via the static exchange table, the ISIN and
the country-coded bond via the fixed-income default strategy, and the
generic futures ticker via the futures-roll strategy, for every external
calendar-mapping oracle. -/
theorem resolver_chain_fixed_inputs (pmcMapped : Str → Bool) :
    resolveVia pmcMapped { ticker := aaplT } = some Strategy.exchangeYaml ∧
    resolveVia pmcMapped { ticker := isinT } = some Strategy.fixedIncomeDefault ∧
    resolveVia pmcMapped { ticker := govtT } = some Strategy.fixedIncomeDefault ∧
    resolveVia pmcMapped { ticker := es1T } = some Strategy.futuresRoll := by
  have h1 : is_fixed_income aaplT = false := by decide
  have h2 : isGenericFutTicker aaplT = false := by decide
  have h3 : (alldayStr == dayStr) = false := by decide
  have h4 : is_fixed_income isinT = true := by decide
  have h5 : is_fixed_income govtT = true := by decide
  have h6 : is_fixed_income es1T = false := by decide
  have h7 : isGenericFutTicker es1T = true := by decide
  refine ⟨?_, ?_, ?_, ?_⟩ <;>
    simp [resolveVia, chainOrder, List.find?, canResolve, h1, h2, h3, h4, h5,
      h6, h7]

/-- C1: whenever the request is not served from the cache and the trial
ledger already counts at least two attempts for the (bdib, ticker, date,
event-type) key, bdib returns an empty result without invoking the external
fetch; on the path that reaches the gate, batch mode returns silently while
interactive mode logs the INFO message first. -/
theorem bdib_trial_gate (env : Env) (ticker dt session typ : Str) (kw : Kw)
    (out : BdibOut)
    (hok : bdib env ticker dt session typ kw = Except.ok out)
    (hload : load_cached_bdib env ticker dt session typ kw = none)
    (htr : 2 ≤ env.trialCount (bdibKey ticker dt typ)) :
    (out.result = [] ∧ out.fetchInvoked = false) ∧
    (env.checkCurrent = true →
      (∀ info, exch_info_for env ticker dt kw = Except.ok info →
        (resolve_bdib_ticker env ticker info).isSome = true) →
      out.infoLogged = (!kw.batch && env.infoEnabled)) := by
  unfold bdib at hok
  cases hinfo : exch_info_for env ticker dt kw with
  | error e => rw [hinfo] at hok; exact absurd hok (by simp)
  | ok info =>
    rw [hinfo] at hok
    have hout : out = bdibCore env ticker dt session typ kw info := by
      injection hok with h
      exact h.symm
    subst hout
    unfold bdibCore
    rw [hload]
    by_cases hcc : env.checkCurrent
    · rw [if_pos hcc]
      cases hres : resolve_bdib_ticker env ticker info with
      | none =>
        refine ⟨⟨rfl, rfl⟩, fun _ hall => ?_⟩
        have := hall info rfl
        rw [hres] at this
        exact absurd this (by simp)
      | some q =>
        rw [if_pos htr]
        by_cases hb : kw.batch
        · rw [if_pos hb]
          exact ⟨⟨rfl, rfl⟩, fun _ _ => by simp [hb]⟩
        · rw [if_neg hb]
          have hb' : kw.batch = false := by
            revert hb; cases kw.batch <;> simp
          exact ⟨⟨rfl, rfl⟩, fun _ _ => by simp [hb']⟩
    · rw [if_neg hcc]
      exact ⟨⟨rfl, rfl⟩, fun h _ => absurd h hcc⟩

theorem bdib_trial_gate_witness :
    (outTrialW.result = [] ∧ outTrialW.fetchInvoked = false) ∧
    (envTrialW.checkCurrent = true →
      (∀ info, exch_info_for envTrialW aaplT dt0 kwDefault = Except.ok info →
        (resolve_bdib_ticker envTrialW aaplT info).isSome = true) →
      outTrialW.infoLogged = (!kwDefault.batch && envTrialW.infoEnabled)) :=
  bdib_trial_gate envTrialW aaplT dt0 alldayStr tradeT kwDefault outTrialW
    rfl rfl (by decide)

/-- C9: with reload forced and caching enabled, the cached bar file is never
read (the cache-read step yields nothing even though a fresh covering file
exists in the fixture), the fetch path is taken, and the fetched payload is
still written to the bar cache once the completeness guard is met. -/
theorem bdib_reload_bypasses_read_still_writes (env : Env)
    (ticker dt session typ : Str) (kw : Kw) (out : BdibOut) (info : ExchInfo)
    (hrel : kw.reload = true) (hc : kw.cache = true)
    (hok : bdib env ticker dt session typ kw = Except.ok out)
    (hinfo : exch_info_for env ticker dt kw = Except.ok info)
    (hcc : env.checkCurrent = true)
    (hres : (resolve_bdib_ticker env ticker info).isSome = true)
    (htr : env.trialCount (bdibKey ticker dt typ) < 2)
    (hne : env.fetchResult ≠ [])
    (hroot : env.cacheRoot ≠ [])
    (hexch : (env.exchTable ticker).isSome = true)
    (hend : env.sessionEnd ≤ env.now - oneHour) :
    load_cached_bdib env ticker dt session typ kw = none ∧
    out.fetchInvoked = true ∧
    out.savedFile =
      some (bar_file env.cacheRoot ticker dt typ, env.fetchResult) := by
  have hload : load_cached_bdib env ticker dt session typ kw = none := by
    simp [load_cached_bdib, hrel]
  refine ⟨hload, ?_⟩
  unfold bdib at hok
  rw [hinfo] at hok
  have hout : out = bdibCore env ticker dt session typ kw info := by
    injection hok with h
    exact h.symm
  subst hout
  unfold bdibCore
  rw [hload, if_pos hcc]
  obtain ⟨q, hq⟩ := Option.isSome_iff_exists.mp hres
  rw [hq, if_neg (by omega), if_neg hne]
  have hsave : save_intraday env env.fetchResult ticker dt typ =
      some (bar_file env.cacheRoot ticker dt typ, env.fetchResult) := by
    obtain ⟨e, he⟩ := Option.isSome_iff_exists.mp hexch
    have h1 := bar_file_ne_nil env.cacheRoot ticker dt typ hroot
    have hge : ¬(env.sessionEnd > env.now - oneHour) := by omega
    simp [save_intraday, h1, hne, he, hge]
  simp [process_bdib_response, hne, hc, hsave]

theorem bdib_reload_witness :
    load_cached_bdib envReloadW aaplT dt0 alldayStr tradeT kwReloadW = none ∧
    (bdibCore envReloadW aaplT dt0 alldayStr tradeT kwReloadW
        { tz := nyTz }).fetchInvoked = true ∧
    (bdibCore envReloadW aaplT dt0 alldayStr tradeT kwReloadW
        { tz := nyTz }).savedFile =
      some (bar_file envReloadW.cacheRoot aaplT dt0 tradeT,
        envReloadW.fetchResult) :=
  bdib_reload_bypasses_read_still_writes envReloadW aaplT dt0 alldayStr tradeT
    kwReloadW (bdibCore envReloadW aaplT dt0 alldayStr tradeT kwReloadW
      { tz := nyTz }) { tz := nyTz } rfl rfl rfl rfl rfl (by decide)
    (by decide) (by decide) (by decide) (by decide) (by decide)

/-- C3 counterexample: with caching disabled on the request but a valid
window and an existing covering cache file, BarCacheAdapter.load returns the
payload rather than absent, refuting the caching-disabled clause of the
claim. -/
theorem bar_cache_load_cache_disabled_cex :
    reqC3.cache_enabled = false ∧
    BarCacheAdapter.load fsC3 ("root".data) reqC3 wC3 = some [(5, 1)] := by
  constructor
  · rfl
  · decide

/-- C3 (amended): BarCacheAdapter.load returns absent when the window is
invalid or when no file exists at the derived key path, and otherwise
returns the stored payload restricted to the window (absent when the
restriction is empty); the caching-disabled and reload bypasses are enforced
by the caller _load_cached_bdib, not by the adapter. -/
theorem bar_cache_load_spec (fs : Str → Option Bars) (root : Str)
    (req : DataRequest) (w : SessionWindow) :
    (w.is_valid = false → BarCacheAdapter.load fs root req w = none) ∧
    (fs (bar_file root req.ticker req.dt req.event_type) = none →
      BarCacheAdapter.load fs root req w = none) ∧
    (∀ content, w.is_valid = true →
      bar_file root req.ticker req.dt req.event_type ≠ [] →
      fs (bar_file root req.ticker req.dt req.event_type) = some content →
      BarCacheAdapter.load fs root req w =
        (if sliceLoc w.start_time w.end_time content = [] then none
         else some (sliceLoc w.start_time w.end_time content))) ∧
    (∀ env ticker dt session typ (kw : Kw),
      kw.cache = false ∨ kw.reload = true →
      load_cached_bdib env ticker dt session typ kw = none) := by
  refine ⟨?_, ?_, ?_, ?_⟩
  · intro h
    simp [BarCacheAdapter.load, h]
  · intro h
    by_cases hv : w.is_valid
    · by_cases hf : bar_file root req.ticker req.dt req.event_type = []
      · simp [BarCacheAdapter.load, hv, hf]
      · simp [BarCacheAdapter.load, hv, hf, h]
    · simp [BarCacheAdapter.load, hv]
  · intro content hv hf hsome
    simp [BarCacheAdapter.load, hv, hf, hsome]
  · intro env ticker dt session typ kw h
    rcases h with h | h <;> simp [load_cached_bdib, h]

theorem bar_cache_load_spec_witness :
    BarCacheAdapter.load fsC3 ("root".data) reqC3 wC3 =
      (if sliceLoc wC3.start_time wC3.end_time [(5, 1)] = [] then none
       else some (sliceLoc wC3.start_time wC3.end_time [(5, 1)])) ∧
    load_cached_bdib envReloadW aaplT dt0 alldayStr tradeT kwReloadW = none :=
  ⟨(bar_cache_load_spec fsC3 ("root".data) reqC3 wC3).2.2.1 [(5, 1)]
      (by decide) (by decide) (by decide),
   (bar_cache_load_spec fsC3 ("root".data) reqC3 wC3).2.2.2 envReloadW aaplT
      dt0 alldayStr tradeT kwReloadW (Or.inr rfl)⟩

theorem sep_split_inj (sep : Char) (a b r1 r2 : Str) (ha : sep ∉ a)
    (hb : sep ∉ b) (h : a ++ sep :: r1 = b ++ sep :: r2) : a = b ∧ r1 = r2 := by
  induction a generalizing b with
  | nil =>
    cases b with
    | nil => simpa using h
    | cons x xs =>
      injection h with h1 h2
      exact absurd (h1 ▸ List.mem_cons_self sep xs) hb
  | cons x xs ih =>
    cases b with
    | nil =>
      injection h with h1 h2
      exact absurd (h1 ▸ List.mem_cons_self sep xs) ha
    | cons y ys =>
      injection h with h1 h2
      obtain ⟨e1, e2⟩ := ih ys (fun hm => ha (List.mem_cons_of_mem _ hm))
        (fun hm => hb (List.mem_cons_of_mem _ hm)) h2
      exact ⟨by rw [h1, e1], e2⟩

theorem encPair_inj (p q : Str × Str) (hp : '=' ∉ p.1) (hq : '=' ∉ q.1)
    (h : encPair p = encPair q) : p = q := by
  obtain ⟨h1, h2⟩ := sep_split_inj '=' p.1 q.1 p.2 q.2 hp hq h
  cases p
  cases q
  simp_all

theorem comma_not_mem_encPair (p : Str × Str) (hp : wfOvrd p) :
    ',' ∉ encPair p := by
  simp only [encPair, List.mem_append, List.mem_cons]
  rintro (h | h | h)
  · exact hp.2.1 h
  · exact absurd h (by decide)
  · exact hp.2.2.1 h

theorem bar_not_mem_encPair (p : Str × Str) (hp : wfOvrd p) :
    '|' ∉ encPair p := by
  simp only [encPair, List.mem_append, List.mem_cons]
  rintro (h | h | h)
  · exact hp.2.2.2.1 h
  · exact absurd h (by decide)
  · exact hp.2.2.2.2 h

theorem encPair_ne_nil (p : Str × Str) : encPair p ≠ [] := by
  simp [encPair]

theorem comma_mem_joinInfo2 (p q : Str × Str) (ps : List (Str × Str)) :
    ',' ∈ joinInfo (p :: q :: ps) := by
  simp [joinInfo]

theorem bar_not_mem_joinInfo (l : List (Str × Str)) :
    (∀ p ∈ l, wfOvrd p) → '|' ∉ joinInfo l := by
  induction l with
  | nil => intro _; simp [joinInfo]
  | cons p ps ih =>
    intro h
    cases ps with
    | nil =>
      simpa [joinInfo] using bar_not_mem_encPair p (h p (List.mem_cons_self _ _))
    | cons q qs =>
      simp only [joinInfo, List.mem_append, List.mem_cons]
      rintro (hm | hm | hm)
      · exact bar_not_mem_encPair p (h p (List.mem_cons_self _ _)) hm
      · exact absurd hm (by decide)
      · rcases hm with hm | hm
        · exact absurd hm (by decide)
        · exact ih (fun r hr => h r (List.mem_cons_of_mem _ hr)) hm

theorem replaceBar_eq_self (s : Str) : '|' ∉ s → replaceBar s = s := by
  induction s with
  | nil => intro _; rfl
  | cons c cs ih =>
    intro h
    have hc : ¬(c = '|') := fun e => h (by rw [e]; exact List.mem_cons_self _ _)
    have ht : '|' ∉ cs := fun m => h (List.mem_cons_of_mem _ m)
    simp only [replaceBar, replaceChar, List.map_cons, if_neg hc]
    have := ih ht
    simp only [replaceBar, replaceChar] at this
    rw [this]

theorem joinInfo_inj (l1 : List (Str × Str)) :
    ∀ l2 : List (Str × Str), (∀ p ∈ l1, wfOvrd p) → (∀ p ∈ l2, wfOvrd p) →
    joinInfo l1 = joinInfo l2 → l1 = l2 := by
  induction l1 with
  | nil =>
    intro l2 _ _ h
    cases l2 with
    | nil => rfl
    | cons q qs =>
      cases qs with
      | nil => exact absurd h.symm (encPair_ne_nil q)
      | cons r rs =>
        exfalso
        have : encPair q ++ ',' :: ' ' :: joinInfo (r :: rs) = [] := h.symm
        simp [encPair] at this
  | cons p ps ih =>
    intro l2 h1 h2 h
    cases ps with
    | nil =>
      cases l2 with
      | nil => exact absurd h (encPair_ne_nil p)
      | cons q qs =>
        cases qs with
        | nil =>
          have := encPair_inj p q (h1 p (List.mem_cons_self _ _)).1
            (h2 q (List.mem_cons_self _ _)).1 h
          rw [this]
        | cons r rs =>
          exfalso
          have hc := comma_mem_joinInfo2 q r rs
          rw [← h] at hc
          exact comma_not_mem_encPair p (h1 p (List.mem_cons_self _ _)) hc
    | cons p2 ps2 =>
      cases l2 with
      | nil =>
        exfalso
        have : encPair p ++ ',' :: ' ' :: joinInfo (p2 :: ps2) = [] := h
        simp [encPair] at this
      | cons q qs =>
        cases qs with
        | nil =>
          exfalso
          have hc := comma_mem_joinInfo2 p p2 ps2
          rw [h] at hc
          exact comma_not_mem_encPair q (h2 q (List.mem_cons_self _ _)) hc
        | cons r rs =>
          simp only [joinInfo] at h
          obtain ⟨e1, e2⟩ := sep_split_inj ',' _ _ _ _
            (comma_not_mem_encPair p (h1 p (List.mem_cons_self _ _)))
            (comma_not_mem_encPair q (h2 q (List.mem_cons_self _ _))) h
          injection e2 with _ e3
          have hpq := encPair_inj p q (h1 p (List.mem_cons_self _ _)).1
            (h2 q (List.mem_cons_self _ _)).1 e1
          have hqs := ih (r :: rs)
            (fun x hx => h1 x (List.mem_cons_of_mem _ hx))
            (fun x hx => h2 x (List.mem_cons_of_mem _ hx)) e3
          rw [hpq, hqs]

theorem refInfo_inj (kw1 kw2 : List (Str × Str)) (h1 : wfOvrds kw1)
    (h2 : wfOvrds kw2) (hne : filtOvrds kw1 ≠ filtOvrds kw2) :
    refInfo kw1 ≠ refInfo kw2 := by
  have w1 : ∀ p ∈ filtOvrds kw1, wfOvrd p :=
    fun p hp => h1.1 p (List.mem_filter.mp hp).1
  have w2 : ∀ p ∈ filtOvrds kw2, wfOvrd p :=
    fun p hp => h2.1 p (List.mem_filter.mp hp).1
  intro heq
  simp only [refInfo] at heq
  by_cases e1 : filtOvrds kw1 = []
  · by_cases e2 : filtOvrds kw2 = []
    · exact hne (e1.trans e2.symm)
    · rw [if_pos e1, if_neg e2] at heq
      exact (h2.2.resolve_left e2) heq.symm
  · by_cases e2 : filtOvrds kw2 = []
    · rw [if_neg e1, if_pos e2] at heq
      exact (h1.2.resolve_left e1) heq
    · rw [if_neg e1, if_neg e2] at heq
      rw [replaceBar_eq_self _ (bar_not_mem_joinInfo _ w1),
        replaceBar_eq_self _ (bar_not_mem_joinInfo _ w2)] at heq
      exact hne (joinInfo_inj _ _ w1 w2 heq)

theorem refDatedPath_info_inj (root ticker fld ext : Str) (dStr : Int → Str)
    (hd : ∀ d : Int, ',' ∉ dStr d) (kw1 kw2 : List (Str × Str)) (d1 d2 : Int)
    (h : refDatedPath root ticker fld kw1 ext dStr d1 =
         refDatedPath root ticker fld kw2 ext dStr d2) :
    refInfo kw1 = refInfo kw2 := by
  simp only [refDatedPath, List.append_assoc, List.cons_append] at h
  have h2 := List.append_cancel_left h
  injection h2 with _ h3
  have h4 := List.append_cancel_left h3
  obtain ⟨-, h5⟩ := sep_split_inj ',' (dStr d1) (dStr d2) _ _ (hd d1) (hd d2) h4
  injection h5 with _ h6
  exact List.append_cancel_right h6

theorem ref_file_dated_eq (fsEx : Str → Bool) (root : Str) (curDate : Int)
    (dStr : Int → Str) (ticker fld ext : Str) (cacheDays : Nat)
    (kw : List (Str × Str)) (hroot : root ≠ []) :
    ref_file fsEx root curDate dStr ticker fld true true ext cacheDays kw =
      (match
        scanBack (fun d => fsEx (refDatedPath root ticker fld kw ext dStr d))
          curDate cacheDays with
       | some d => refDatedPath root ticker fld kw ext dStr d
       | none => refDatedPath root ticker fld kw ext dStr curDate) := by
  simp [ref_file, hroot]

theorem scanBack_none (p : Int → Bool) (n : Nat) :
    ∀ d : Int, (∀ k : Nat, k < n → p (d - k) = false) →
    scanBack p d n = none := by
  induction n with
  | zero => intro d _; rfl
  | succ m ih =>
    intro d h
    have h0 : p d = false := by simpa using h 0 (Nat.succ_pos m)
    simp only [scanBack, h0, Bool.false_eq_true, if_false]
    refine ih (d - 1) fun k hk => ?_
    have := h (k + 1) (by omega)
    have harith : d - 1 - (k : Int) = d - ((k : Nat) + 1 : Nat) := by
      push_cast
      ring
    rw [harith]
    exact this

theorem scanBack_found (p : Int → Bool) (n : Nat) :
    ∀ d : Int, ∀ e : Int, p e = true → d - n < e → e ≤ d →
    (∀ x : Int, e < x → x ≤ d → p x = false) →
    scanBack p d n = some e := by
  induction n with
  | zero =>
    intro d e _ hlo hhi _
    exfalso
    simp only [Nat.cast_zero, sub_zero] at hlo
    omega
  | succ m ih =>
    intro d e he hlo hhi hmax
    by_cases hed : e = d
    · subst hed
      simp [scanBack, he]
    · have hlt : e < d := lt_of_le_of_ne hhi hed
      have hpd : p d = false := hmax d hlt le_rfl
      simp only [scanBack, hpd, Bool.false_eq_true, if_false]
      refine ih (d - 1) e he (by push_cast at hlo ⊢; omega) (by omega)
        fun x hx1 hx2 => hmax x hx1 (by omega)

/-- C8: in dated mode, ref_file scans backward from the current date over a
window of cacheDays days and returns the path of the most recent date in
that window whose cache file exists; when none exists, it returns the path
dated with the current date. -/
theorem ref_file_dated_backward_scan (fsEx : Str → Bool) (root : Str)
    (curDate : Int) (dStr : Int → Str) (ticker fld ext : Str)
    (cacheDays : Nat) (kw : List (Str × Str)) (hroot : root ≠ []) :
    ((∀ k : Nat, k < cacheDays →
        fsEx (refDatedPath root ticker fld kw ext dStr (curDate - k)) =
          false) →
      ref_file fsEx root curDate dStr ticker fld true true ext cacheDays kw =
        refDatedPath root ticker fld kw ext dStr curDate) ∧
    (∀ d : Int,
      fsEx (refDatedPath root ticker fld kw ext dStr d) = true →
      curDate - cacheDays < d → d ≤ curDate →
      (∀ e : Int, d < e → e ≤ curDate →
        fsEx (refDatedPath root ticker fld kw ext dStr e) = false) →
      ref_file fsEx root curDate dStr ticker fld true true ext cacheDays kw =
        refDatedPath root ticker fld kw ext dStr d) := by
  constructor
  · intro h
    have hs := scanBack_none
      (fun d => fsEx (refDatedPath root ticker fld kw ext dStr d)) cacheDays
      curDate h
    simp [ref_file, hroot, hs]
  · intro d hd hlo hhi hmax
    have hs := scanBack_found
      (fun d => fsEx (refDatedPath root ticker fld kw ext dStr d)) cacheDays
      curDate d hd hlo hhi hmax
    simp [ref_file, hroot, hs]

theorem ref_file_dated_backward_scan_witness :
    ref_file fsEx8 ("r").data 10 dateStr8 ("t").data ("f").data true true
        ("e").data 3 [] =
      refDatedPath ("r").data ("t").data ("f").data [] ("e").data dateStr8 9 :=
  (ref_file_dated_backward_scan fsEx8 ("r").data 10 dateStr8 ("t").data
      ("f").data ("e").data 3 [] (by decide)).2 9 (by decide) (by decide)
    (by decide)
    (fun e h1 h2 => by
      have he : e = 10 := by omega
      rw [he]
      decide)

end Xbbg
